import Mathlib

/-!
Shallow embedding of the eBay listings application's category/item stores
and lifecycle evaluator (src/app/add_category.py, src/app/add_item.py,
src/app/end_items.py), together with proofs of the specification claims.

Dates are modelled by the proleptic Gregorian calendar exactly as CPython's
`datetime.date`: `Date.toOrdinal` is CPython's `date.toordinal` (days since
0001-01-01, that day having ordinal 1), date subtraction is ordinal
subtraction, and date comparison is lexicographic on (year, month, day);
the two orders are proved equivalent below (`Date.le_iff_toOrdinal`).
-/

namespace EbayListings

/-- Gregorian leap-year test, as in CPython `datetime._is_leap`. -/
def isLeap (y : Nat) : Bool :=
  (y % 4 == 0 && y % 100 != 0) || y % 400 == 0

/-- Number of days in month `m` of year `y`, as in CPython `datetime._days_in_month`. -/
def daysInMonth (y m : Nat) : Nat :=
  if m = 2 then (if isLeap y then 29 else 28)
  else if m = 4 ∨ m = 6 ∨ m = 9 ∨ m = 11 then 30
  else 31

/-- Days in year `y` before the first day of month `m` (for `1 ≤ m ≤ 12`),
as in CPython `datetime._days_before_month`. -/
def daysBeforeMonth (y m : Nat) : Nat :=
  (match m with
   | 1 => 0 | 2 => 31 | 3 => 59 | 4 => 90 | 5 => 120 | 6 => 151
   | 7 => 181 | 8 => 212 | 9 => 243 | 10 => 273 | 11 => 304 | _ => 334)
  + (if 2 < m ∧ isLeap y then 1 else 0)

/-- Days before January 1st of year `y` (for `y ≥ 1`),
as in CPython `datetime._days_before_year`. -/
def daysBeforeYear (y : Nat) : Nat :=
  365 * (y - 1) + (y - 1) / 4 - (y - 1) / 100 + (y - 1) / 400

/-- A calendar date, as CPython `datetime.date`. -/
structure Date where
  year : Nat
  month : Nat
  day : Nat
deriving Repr, DecidableEq

/-- The range checks CPython's `date` constructor enforces (month in 1..12,
day in 1..days-in-month, year at least `MINYEAR = 1`). -/
def Date.valid (dt : Date) : Prop :=
  1 ≤ dt.year ∧ 1 ≤ dt.month ∧ dt.month ≤ 12 ∧ 1 ≤ dt.day ∧ dt.day ≤ daysInMonth dt.year dt.month

instance (dt : Date) : Decidable dt.valid := by
  unfold Date.valid; infer_instance

/-- CPython `date.toordinal`: day count since 0001-01-01 (which has ordinal 1). -/
def Date.toOrdinal (dt : Date) : Nat :=
  daysBeforeYear dt.year + daysBeforeMonth dt.year dt.month + dt.day

/-- CPython date comparison (`date.__le__`): lexicographic on (year, month, day). -/
def Date.le (a b : Date) : Prop :=
  a.year < b.year ∨ (a.year = b.year ∧ (a.month < b.month ∨ (a.month = b.month ∧ a.day ≤ b.day)))

/-- Strict version of `Date.le`. -/
def Date.lt (a b : Date) : Prop :=
  a.year < b.year ∨ (a.year = b.year ∧ (a.month < b.month ∨ (a.month = b.month ∧ a.day < b.day)))

instance (a b : Date) : Decidable (Date.le a b) := by
  unfold Date.le; infer_instance

instance (a b : Date) : Decidable (Date.lt a b) := by
  unfold Date.lt; infer_instance

/-- ASCII digit test (the only digits `YYYY-MM-DD` strings contain). -/
def isDigitChar (c : Char) : Bool :=
  48 ≤ c.toNat && c.toNat ≤ 57

/-- Numeric value of an ASCII digit character. -/
def digitVal (c : Char) : Nat :=
  c.toNat - 48

/-- CPython `date.fromisoformat` restricted to the canonical `YYYY-MM-DD`
format that this application stores (the only format the repository ever
writes); any other string is a parse failure (`ValueError` in Python,
`none` here).  The stated range checks are the `date` constructor's. -/
def Date.fromisoformat (s : String) : Option Date :=
  match s.data with
  | [y1, y2, y3, y4, h1, m1, m2, h2, d1, d2] =>
    if isDigitChar y1 && isDigitChar y2 && isDigitChar y3 && isDigitChar y4
        && h1 == '-' && isDigitChar m1 && isDigitChar m2
        && h2 == '-' && isDigitChar d1 && isDigitChar d2 then
      let y := 1000 * digitVal y1 + 100 * digitVal y2 + 10 * digitVal y3 + digitVal y4
      let m := 10 * digitVal m1 + digitVal m2
      let d := 10 * digitVal d1 + digitVal d2
      if 1 ≤ y ∧ 1 ≤ m ∧ m ≤ 12 ∧ 1 ≤ d ∧ d ≤ daysInMonth y m then
        some ⟨y, m, d⟩
      else none
    else none
  | _ => none

theorem fromisoformat_valid {s : String} {dt : Date}
    (h : Date.fromisoformat s = some dt) : dt.valid := by
  unfold Date.fromisoformat at h
  split at h
  · split at h
    · dsimp only at h
      split at h
      · rename_i hcond
        cases h
        exact ⟨hcond.1, hcond.2.1, hcond.2.2.1, hcond.2.2.2.1, hcond.2.2.2.2⟩
      · exact absurd h (by simp)
    · exact absurd h (by simp)
  · exact absurd h (by simp)

theorem fromisoformat_empty : Date.fromisoformat "" = none := by
  decide

set_option maxHeartbeats 1600000 in
theorem daysBeforeYear_succ (y : Nat) (hy : 1 ≤ y) :
    daysBeforeYear (y + 1) = daysBeforeYear y + (if isLeap y then 366 else 365) := by
  have hl : isLeap y = true ↔ ((y % 4 = 0 ∧ y % 100 ≠ 0) ∨ y % 400 = 0) := by
    unfold isLeap; simp
  obtain ⟨x, rfl⟩ : ∃ x, y = x + 1 := ⟨y - 1, by omega⟩
  unfold daysBeforeYear
  simp only [Nat.add_sub_cancel]
  by_cases hb : isLeap (x + 1) = true
  · rw [if_pos hb]
    rw [hl] at hb
    omega
  · rw [if_neg hb]
    rw [hl] at hb
    omega

theorem dby_le_succ (y : Nat) : daysBeforeYear y ≤ daysBeforeYear (y + 1) := by
  unfold daysBeforeYear
  omega

theorem daysBeforeYear_mono {y z : Nat} (h : y ≤ z) :
    daysBeforeYear y ≤ daysBeforeYear z := by
  induction z with
  | zero => simp_all
  | succ n ih =>
    rcases Nat.lt_or_ge y (n + 1) with hlt | hge
    · exact Nat.le_trans (ih (by omega)) (dby_le_succ n)
    · have : y = n + 1 := by omega
      subst this
      exact Nat.le_refl _

theorem toOrdinal_year_bound (dt : Date) (h : dt.valid) :
    dt.toOrdinal ≤ daysBeforeYear dt.year + (if isLeap dt.year then 366 else 365) := by
  rcases dt with ⟨y, m, d⟩
  obtain ⟨hy, hm1, hm2, hd1, hd2⟩ := h
  simp only at hy hm1 hm2 hd1 hd2
  unfold Date.toOrdinal
  simp only
  cases hb : isLeap y <;>
    (unfold daysInMonth at hd2; interval_cases m <;>
      simp_all [daysBeforeMonth] <;> omega)

theorem toOrdinal_lt_of_lt {a b : Date} (ha : a.valid) (hb : b.valid)
    (hlt : Date.lt a b) : a.toOrdinal < b.toOrdinal := by
  rcases a with ⟨ya, ma, da⟩
  rcases b with ⟨yb, mb, db⟩
  obtain ⟨hya, hma1, hma2, hda1, hda2⟩ := ha
  obtain ⟨hyb, hmb1, hmb2, hdb1, hdb2⟩ := hb
  simp only at hya hma1 hma2 hda1 hda2 hyb hmb1 hmb2 hdb1 hdb2
  unfold Date.lt at hlt
  simp only at hlt
  rcases hlt with hy | ⟨hy, hm | ⟨hm, hd⟩⟩
  · have h1 := toOrdinal_year_bound ⟨ya, ma, da⟩
      ⟨hya, hma1, hma2, hda1, hda2⟩
    have h2 := daysBeforeYear_succ ya hya
    have h3 : daysBeforeYear (ya + 1) ≤ daysBeforeYear yb :=
      daysBeforeYear_mono (by omega)
    have h4 : daysBeforeYear yb < Date.toOrdinal ⟨yb, mb, db⟩ := by
      unfold Date.toOrdinal; simp only; omega
    unfold Date.toOrdinal at h1 h4 ⊢
    simp only at h1 h4 ⊢
    omega
  · subst hy
    have key : daysBeforeMonth ya ma + da ≤ daysBeforeMonth ya mb := by
      cases hleap : isLeap ya <;>
        (unfold daysInMonth at hda2; interval_cases ma <;> interval_cases mb <;>
          simp_all [daysBeforeMonth] <;> omega)
    unfold Date.toOrdinal
    simp only
    omega
  · subst hy; subst hm
    unfold Date.toOrdinal
    simp only
    omega

/-- CPython date comparison (lexicographic on year, month, day) agrees with
ordinal comparison on in-range dates. -/
theorem Date.le_iff_toOrdinal {a b : Date} (ha : a.valid) (hb : b.valid) :
    Date.le a b ↔ a.toOrdinal ≤ b.toOrdinal := by
  constructor
  · intro h
    have hcase : Date.lt a b ∨ (a.year = b.year ∧ a.month = b.month ∧ a.day = b.day) := by
      unfold Date.le at h; unfold Date.lt; omega
    rcases hcase with hcase | ⟨h1, h2, h3⟩
    · exact Nat.le_of_lt (toOrdinal_lt_of_lt ha hb hcase)
    · unfold Date.toOrdinal
      rw [h1, h2, h3]
  · intro h
    by_contra hc
    have hba : Date.lt b a := by
      unfold Date.le at hc; unfold Date.lt; omega
    exact absurd (toOrdinal_lt_of_lt hb ha hba) (by omega)

/-! String helpers mirroring the Python string methods the stores use. -/

/-- Python `str.strip()` (ASCII-whitespace model, enough for this data). -/
def pyStrip (s : String) : String :=
  String.mk (((s.data.dropWhile Char.isWhitespace).reverse.dropWhile Char.isWhitespace).reverse)

/-- Python `str.lower()` restricted to ASCII letters (the status values
this application compares are plain ASCII). -/
def lowerChar (c : Char) : Char :=
  if 65 ≤ c.toNat ∧ c.toNat ≤ 90 then Char.ofNat (c.toNat + 32) else c

/-- Python `str.lower()` (ASCII model). -/
def pyLower (s : String) : String :=
  String.mk (s.data.map lowerChar)

/-- Python `str.isdigit()` (ASCII model): non-empty and all characters digits. -/
def pyIsDigit (s : String) : Bool :=
  !(s == "") && s.data.all isDigitChar

/-- Python `int(...)` on an all-digits string. -/
def strToNat (s : String) : Nat :=
  s.data.foldl (fun n c => 10 * n + digitVal c) 0

/-! ### Item records (src/app/add_item.py)

An item record as held in `AddItemView.items` after `_load_items`
normalisation: every field a string. -/

structure Item where
  id : String
  category : String
  name : String
  description : String
  notes : String
  date_added : String
  end_date : String
  image_url : String
  status : String
deriving Repr, DecidableEq

/-- The expression `(item.get("status") or "active").lower()` from
`_refresh_item_statuses` and the status filters: an empty (falsy) status
reads as "active", then lower-cased. -/
def statusNorm (s : String) : String :=
  pyLower (if s = "" then "active" else s)

/-- `AddItemView._days_left_for_item` (src/app/add_item.py lines 660-670):
`None` when `end_date` is empty or fails `date.fromisoformat`, otherwise
`(end_date - today).days`, which for Python dates is the difference of
their ordinals. -/
def days_left_for_item (item : Item) (today : Date) : Option Int :=
  if item.end_date = "" then none
  else
    match Date.fromisoformat item.end_date with
    | some endDate => some ((endDate.toOrdinal : Int) - (today.toOrdinal : Int))
    | none => none

/-- The body of the `for` loop of `AddItemView._refresh_item_statuses`
(src/app/add_item.py lines 675-680) acting on one record: returns the
updated record and whether it changed. -/
def refreshItem (today : Date) (item : Item) : Item × Bool :=
  match days_left_for_item item today with
  | some daysLeft =>
    if daysLeft ≤ 0 ∧ statusNorm item.status ≠ "ended" then
      ({ item with status := "ended" }, true)
    else (item, false)
  | none => (item, false)

/-- `AddItemView._refresh_item_statuses` (src/app/add_item.py lines 672-681):
updates every record in place and returns whether any record changed.
The records are processed independently, so the loop is a map, and the
accumulated `changed` flag is an any. Python takes `today = date.today()`
once at the top of the loop; here it is the `today` parameter. -/
def refresh_item_statuses (items : List Item) (today : Date) : List Item × Bool :=
  (items.map (fun item => (refreshItem today item).1),
   items.any (fun item => (refreshItem today item).2))

/-- The active filter of `AddItemView._render_items_list`
(src/app/add_item.py lines 509-511). -/
def listActive (items : List Item) : List Item :=
  items.filter (fun item => statusNorm item.status != "ended")

/-- The ended filter of `EndItemsView._apply_filters` with no search text
(src/app/end_items.py lines 139-141). -/
def listEnded (items : List Item) : List Item :=
  items.filter (fun item => statusNorm item.status == "ended")

/-- `AddItemView.end_item` (src/app/add_item.py lines 720-729): the first
record matching the id gets status "ended"; no match leaves the list as is. -/
def end_item : List Item → String → List Item
  | [], _ => []
  | item :: rest, item_id =>
    if item.id = item_id then { item with status := "ended" } :: rest
    else item :: end_item rest item_id

/-- `AddItemView.restore_item` (src/app/add_item.py lines 731-740): the first
record matching the id gets status "active"; no match leaves the list as is. -/
def restore_item : List Item → String → List Item
  | [], _ => []
  | item :: rest, item_id =>
    if item.id = item_id then { item with status := "active" } :: rest
    else item :: restore_item rest item_id

/-- `AddItemView.delete_item` (src/app/add_item.py lines 711-718): removes
the first record matching the id. -/
def delete_item : List Item → String → List Item
  | [], _ => []
  | item :: rest, item_id =>
    if item.id = item_id then rest
    else item :: delete_item rest item_id

/-- The replace-by-id loop of `AddItemView._handle_save`
(src/app/add_item.py lines 414-418): replaces the first record whose id
matches `_editing_item_id` and stops; appends nothing when no id matches. -/
def update_item_by_id : List Item → String → Item → List Item
  | [], _, _ => []
  | existing :: rest, item_id, item =>
    if existing.id = item_id then item :: rest
    else existing :: update_item_by_id rest item_id item

/-- The collection mutation of `AddItemView._handle_save`
(src/app/add_item.py lines 414-420): with `_editing_item_id` set, replace
by id; otherwise append the new record. -/
def handle_save_items (items : List Item) (editing_item_id : Option String)
    (item : Item) : List Item :=
  match editing_item_id with
  | some item_id => update_item_by_id items item_id item
  | none => items ++ [item]

/-! ### Category records (src/app/add_category.py) -/

structure Category where
  name : String
  description : String
  days : String
deriving Repr, DecidableEq

/-- A JSON object as read from `categories.json`: each key either absent or
holding a string value (the loader passes every value through `str(...)`,
so string values are the only shape the data model admits). -/
structure CatRaw where
  name : Option String
  description : Option String
  days : Option String
deriving Repr, DecidableEq

/-- One element of the top-level JSON array of `categories.json`: either not
a dict, or a dict of fields. -/
inductive CatEntry where
  | notDict
  | obj (fields : CatRaw)
deriving Repr, DecidableEq

/-- The per-entry normalisation of `AddCategoryView._load_categories`
(src/app/add_category.py lines 504-511): non-dict entries and entries whose
stripped name is empty are dropped; `days` falls back to "0" when empty
after stripping (`days or "0"`). -/
def loadCatEntry : CatEntry → Option Category
  | .notDict => none
  | .obj fields =>
    let name := pyStrip (fields.name.getD "")
    let description := pyStrip (fields.description.getD "")
    let days := pyStrip (fields.days.getD "")
    if name = "" then none
    else some { name := name, description := description,
                days := if days = "" then "0" else days }

/-- `AddCategoryView._load_categories` normalisation loop over the parsed
JSON array (src/app/add_category.py lines 502-512). -/
def load_categories (entries : List CatEntry) : List Category :=
  entries.filterMap loadCatEntry

/-- The Python test `not days_value.isdigit() or int(days_value) <= 0`
used by `_save_category`, negated: the days input is accepted. -/
def validDays (s : String) : Bool :=
  pyIsDigit s && decide (0 < strToNat s)

/-- `AddCategoryView._save_category` (src/app/add_category.py lines 281-310):
strips the three inputs, rejects on an empty name or an invalid day count
leaving the collection untouched (returns the flag `false`), otherwise in
edit mode replaces the record at `_editing_index` and otherwise appends,
returning the flag `true` (the collection is then persisted).  Python
list-index assignment presupposes the index is in range, which the caller
`_handle_edit_category` guarantees; `List.set` agrees on that range. -/
def save_category (categories : List Category) (dialog_mode : String)
    (editing_index : Option Nat)
    (name_input description_input days_input : String) : List Category × Bool :=
  let name := pyStrip name_input
  let description := pyStrip description_input
  let days_value := pyStrip days_input
  if name = "" then (categories, false)
  else if !(validDays days_value) then (categories, false)
  else
    let category : Category := { name := name, description := description, days := days_value }
    match dialog_mode, editing_index with
    | "edit", some index => (categories.set index category, true)
    | _, _ => (categories ++ [category], true)

/-! ### Item loading (src/app/add_item.py `_load_items`) -/

/-- A JSON object as read from `items.json`: each key absent or a string. -/
structure ItemRaw where
  id : Option String
  category : Option String
  name : Option String
  description : Option String
  notes : Option String
  date_added : Option String
  end_date : Option String
  image_url : Option String
  status : Option String
deriving Repr, DecidableEq

/-- One element of the top-level JSON array of `items.json`. -/
inductive ItemEntry where
  | notDict
  | obj (fields : ItemRaw)
deriving Repr, DecidableEq

/-- `str(normalized.get("status", "active")).strip() or "active"`
(src/app/add_item.py line 654). -/
def normStatus (raw : Option String) : String :=
  let s := pyStrip (raw.getD "active")
  if s = "" then "active" else s

/-- The normalisation loop of `AddItemView._load_items` (src/app/add_item.py
lines 640-656).  `fresh n` models the n-th value of `uuid4().hex`, drawn
only when an entry arrives without a usable id, in entry order
(`str(normalized.get("id") or uuid4().hex)`); non-dict entries are skipped. -/
def load_items_loop (fresh : Nat → String) : Nat → List ItemEntry → List Item
  | _, [] => []
  | n, .notDict :: rest => load_items_loop fresh n rest
  | n, .obj fields :: rest =>
    let idPair : String × Nat :=
      match fields.id with
      | some s => if s = "" then (fresh n, n + 1) else (s, n)
      | none => (fresh n, n + 1)
    { id := idPair.1,
      name := pyStrip (fields.name.getD ""),
      description := pyStrip (fields.description.getD ""),
      notes := pyStrip (fields.notes.getD ""),
      category := pyStrip (fields.category.getD ""),
      date_added := pyStrip (fields.date_added.getD ""),
      end_date := pyStrip (fields.end_date.getD ""),
      image_url := pyStrip (fields.image_url.getD ""),
      status := normStatus fields.status } :: load_items_loop fresh idPair.2 rest

/-- `AddItemView._load_items` normalisation of a parsed JSON array
(the subsequent `_refresh_item_statuses` call is modelled separately by
`refresh_item_statuses`). -/
def load_items_norm (fresh : Nat → String) (entries : List ItemEntry) : List Item :=
  load_items_loop fresh 0 entries

/-! ### Lifecycle lemmas -/

theorem statusNorm_of_active : statusNorm "active" = "active" := by decide

theorem statusNorm_of_ended : statusNorm "ended" = "ended" := by decide

theorem days_left_set_status (item : Item) (s : String) (today : Date) :
    days_left_for_item { item with status := s } today = days_left_for_item item today := rfl

theorem refreshItem_of_none {item : Item} {today : Date}
    (h : days_left_for_item item today = none) :
    refreshItem today item = (item, false) := by
  unfold refreshItem
  rw [h]

theorem refreshItem_of_skip {item : Item} {today : Date} {dl : Int}
    (h : days_left_for_item item today = some dl)
    (hc : ¬(dl ≤ 0 ∧ statusNorm item.status ≠ "ended")) :
    refreshItem today item = (item, false) := by
  unfold refreshItem
  rw [h]
  simp only [if_neg hc]

theorem refreshItem_of_end {item : Item} {today : Date} {dl : Int}
    (h : days_left_for_item item today = some dl)
    (hc : dl ≤ 0 ∧ statusNorm item.status ≠ "ended") :
    refreshItem today item = ({ item with status := "ended" }, true) := by
  unfold refreshItem
  rw [h]
  simp only [if_pos hc]

theorem refreshItem_idem (today : Date) (item : Item) :
    refreshItem today (refreshItem today item).1 = ((refreshItem today item).1, false) := by
  cases hdl : days_left_for_item item today with
  | none =>
    rw [refreshItem_of_none hdl]
    exact refreshItem_of_none hdl
  | some dl =>
    by_cases hc : dl ≤ 0 ∧ statusNorm item.status ≠ "ended"
    · rw [refreshItem_of_end hdl hc]
      have hdl2 : days_left_for_item { item with status := "ended" } today = some dl := by
        rw [days_left_set_status]
        exact hdl
      exact refreshItem_of_skip hdl2 (fun hcontra => hcontra.2 statusNorm_of_ended)
    · rw [refreshItem_of_skip hdl hc]
      exact refreshItem_of_skip hdl hc

theorem refreshItem_snd_iff (today : Date) (item : Item) :
    (refreshItem today item).2 = true ↔ (refreshItem today item).1 ≠ item := by
  cases hdl : days_left_for_item item today with
  | none =>
    rw [refreshItem_of_none hdl]
    simp
  | some dl =>
    by_cases hc : dl ≤ 0 ∧ statusNorm item.status ≠ "ended"
    · rw [refreshItem_of_end hdl hc]
      simp only [true_iff]
      intro heq
      have : item.status = "ended" := by
        have := congrArg Item.status heq
        simpa using this.symm
      exact hc.2 (by rw [this]; exact statusNorm_of_ended)
    · rw [refreshItem_of_skip hdl hc]
      simp

theorem refreshItem_of_status_ended {item : Item} (today : Date)
    (h : item.status = "ended") :
    refreshItem today item = (item, false) := by
  cases hdl : days_left_for_item item today with
  | none => exact refreshItem_of_none hdl
  | some dl =>
    refine refreshItem_of_skip hdl ?_
    intro hcontra
    exact hcontra.2 (by rw [h]; exact statusNorm_of_ended)

/-- C1: for every item record with a non-empty `end_date` that parses as a
`YYYY-MM-DD` date `endDate` and whose status (an enum value per the data
model) is not already "ended", lifecycle evaluation at `today` sets the
record's status to "ended" iff `today >= endDate`; a record whose status is
"ended" is left untouched (never set back to "active"); and the returned
flag is true exactly when at least one record changed. -/
theorem lifecycle_monotonic_C1 (items : List Item) (today : Date)
    (htoday : today.valid) :
    (∀ (k : Nat) (item : Item) (endDate : Date), items[k]? = some item →
        item.end_date ≠ "" →
        Date.fromisoformat item.end_date = some endDate →
        (item.status = "active" ∨ item.status = "ended") →
        item.status ≠ "ended" →
        (((refresh_item_statuses items today).1)[k]? = some { item with status := "ended" }
          ↔ Date.le endDate today))
    ∧ (∀ (k : Nat) (item : Item), items[k]? = some item → item.status = "ended" →
        ((refresh_item_statuses items today).1)[k]? = some item)
    ∧ ((refresh_item_statuses items today).2 = true
        ↔ (refresh_item_statuses items today).1 ≠ items) := by
  refine ⟨?_, ?_, ?_⟩
  · intro k item endDate hk hne hiso hsenum hsne
    have hact : item.status = "active" := by
      rcases hsenum with h | h
      · exact h
      · exact absurd h hsne
    have hdl : days_left_for_item item today
        = some ((endDate.toOrdinal : Int) - (today.toOrdinal : Int)) := by
      unfold days_left_for_item
      rw [if_neg hne, hiso]
    have hmap : ((refresh_item_statuses items today).1)[k]?
        = some (refreshItem today item).1 := by
      unfold refresh_item_statuses
      simp only [List.getElem?_map, hk]
      rfl
    rw [hmap]
    have hvalidEnd : endDate.valid := fromisoformat_valid hiso
    by_cases hle : Date.le endDate today
    · have hord : endDate.toOrdinal ≤ today.toOrdinal :=
        (Date.le_iff_toOrdinal hvalidEnd htoday).mp hle
      have hend := refreshItem_of_end hdl
        ⟨by omega, by rw [hact]; rw [statusNorm_of_active]; decide⟩
      rw [hend]
      simp [hle]
    · have hord : ¬(endDate.toOrdinal ≤ today.toOrdinal) := by
        intro hcontra
        exact hle ((Date.le_iff_toOrdinal hvalidEnd htoday).mpr hcontra)
      have hskip := refreshItem_of_skip hdl (by
        intro hcontra
        exact hord (by omega))
      rw [hskip]
      simp only [Option.some.injEq]
      constructor
      · intro heq
        have hstat : item.status = "ended" := congrArg Item.status heq
        rw [hact] at hstat
        exact absurd hstat (by decide)
      · intro hcontra
        exact absurd hcontra hle
  · intro k item hk hended
    unfold refresh_item_statuses
    simp only [List.getElem?_map, hk]
    show some (refreshItem today item).1 = some item
    rw [refreshItem_of_status_ended today hended]
  · unfold refresh_item_statuses
    simp only
    induction items with
    | nil => simp
    | cons hd tl ih =>
      simp only [List.any_cons, List.map_cons, Bool.or_eq_true, ne_eq, List.cons.injEq,
        not_and]
      rw [refreshItem_snd_iff]
      simp only [ne_eq] at ih
      rw [ih]
      by_cases h1 : (refreshItem today hd).1 = hd <;>
        by_cases h2 : tl.map (fun item => (refreshItem today item).1) = tl <;>
        simp [h1, h2]

/-- C2: lifecycle evaluation is idempotent: running it a second time at the
same `today` with no intervening mutation changes no record and reports no
change (in particular an already-"ended" record is never re-flagged). -/
theorem lifecycle_idempotent_C2 (items : List Item) (today : Date) :
    refresh_item_statuses (refresh_item_statuses items today).1 today
      = ((refresh_item_statuses items today).1, false) := by
  have hfst : ∀ item : Item,
      (refreshItem today (refreshItem today item).1).1 = (refreshItem today item).1 := by
    intro item
    rw [refreshItem_idem]
  have hsnd : ∀ item : Item,
      (refreshItem today (refreshItem today item).1).2 = false := by
    intro item
    rw [refreshItem_idem]
  unfold refresh_item_statuses
  simp only [Prod.mk.injEq]
  constructor
  · rw [List.map_map]
    apply List.map_congr_left
    intro a _
    simp only [Function.comp_apply]
    exact hfst a
  · rw [List.any_map]
    simp only [List.any_eq_false, Function.comp_apply]
    intro a _
    simp [hsnd a]

theorem fromisoformat_ne_empty {s : String} {dt : Date}
    (h : Date.fromisoformat s = some dt) : s ≠ "" := by
  intro he
  rw [he, fromisoformat_empty] at h
  exact Option.noConfusion h

theorem restore_item_first_match :
    ∀ (items : List Item) (k : Nat) (item : Item) (item_id : String),
      items[k]? = some item → item.id = item_id →
      (∀ (j : Nat) (prev : Item), j < k → items[j]? = some prev → prev.id ≠ item_id) →
      (restore_item items item_id)[k]? = some { item with status := "active" }
  | [], k, item, item_id, hk, _, _ => by simp at hk
  | hd :: tl, 0, item, item_id, hk, hid, _ => by
    simp only [List.getElem?_cons_zero, Option.some.injEq] at hk
    subst hk
    unfold restore_item
    rw [if_pos hid]
    simp
  | hd :: tl, k + 1, item, item_id, hk, hid, hfirst => by
    simp only [List.getElem?_cons_succ] at hk
    have hhd : hd.id ≠ item_id := hfirst 0 hd (Nat.succ_pos k) (by simp)
    unfold restore_item
    rw [if_neg hhd]
    simp only [List.getElem?_cons_succ]
    exact restore_item_first_match tl k item item_id hk hid
      (fun j prev hj hprev => hfirst (j + 1) prev (by omega) (by simpa using hprev))

/-- C5: `restore_item` sets the status of the (first) record matching the id
to "active" unconditionally, even when its end date is in the past; and when
that end date is on or before `today`, the next lifecycle evaluation at
`today` immediately sets the record back to "ended". -/
theorem restore_reend_C5 (items : List Item) (k : Nat) (item : Item)
    (item_id : String) (today endDate : Date)
    (hk : items[k]? = some item)
    (hid : item.id = item_id)
    (hfirst : ∀ (j : Nat) (prev : Item), j < k → items[j]? = some prev → prev.id ≠ item_id)
    (hiso : Date.fromisoformat item.end_date = some endDate)
    (hle : Date.le endDate today)
    (htoday : today.valid) :
    (restore_item items item_id)[k]? = some { item with status := "active" }
    ∧ ((refresh_item_statuses (restore_item items item_id) today).1)[k]?
        = some { item with status := "ended" } := by
  have hrestore := restore_item_first_match items k item item_id hk hid hfirst
  refine ⟨hrestore, ?_⟩
  unfold refresh_item_statuses
  simp only [List.getElem?_map, hrestore]
  show some (refreshItem today { item with status := "active" }).1
      = some { item with status := "ended" }
  have hne : item.end_date ≠ "" := fromisoformat_ne_empty hiso
  have hdl : days_left_for_item { item with status := "active" } today
      = some ((endDate.toOrdinal : Int) - (today.toOrdinal : Int)) := by
    rw [days_left_set_status]
    unfold days_left_for_item
    rw [if_neg hne, hiso]
  have hord : endDate.toOrdinal ≤ today.toOrdinal :=
    (Date.le_iff_toOrdinal (fromisoformat_valid hiso) htoday).mp hle
  have hend := refreshItem_of_end hdl ⟨by omega, by
    show statusNorm "active" ≠ "ended"
    rw [statusNorm_of_active]
    decide⟩
  rw [hend]

/-- C6: for every item collection, the active-status filter and the
ended-status filter partition the collection: together (as a multiset) they
are the whole collection, and no record passes both.  This holds of every
list of records, hence in particular after any sequence of add, delete, end
and restore operations. -/
theorem filter_partition_C6 (items : List Item) :
    (listActive items ++ listEnded items).Perm items
    ∧ ∀ item : Item, item ∈ listActive items → item ∉ listEnded items := by
  constructor
  · unfold listActive listEnded
    induction items with
    | nil => simp
    | cons hd tl ih =>
      rw [List.filter_cons, List.filter_cons]
      by_cases h : statusNorm hd.status = "ended"
      · simp only [h]
        have h1 : (("ended" : String) != "ended") = false := by decide
        have h2 : (("ended" : String) == "ended") = true := by decide
        rw [h1, h2]
        simp only [if_neg Bool.false_ne_true, if_pos rfl]
        exact List.Perm.trans (List.perm_middle) (List.Perm.cons hd ih)
      · have h1 : (statusNorm hd.status != "ended") = true := by
          simp [bne, h]
        have h2 : (statusNorm hd.status == "ended") = false := by
          simp [h]
        rw [h1, h2]
        simp only [if_pos rfl, if_neg Bool.false_ne_true, List.cons_append]
        exact List.Perm.cons hd ih
  · intro item h1 h2
    unfold listActive at h1
    unfold listEnded at h2
    rw [List.mem_filter] at h1 h2
    have hne := h1.2
    have heq := h2.2
    rw [bne_iff_ne] at hne
    rw [beq_iff_eq] at heq
    exact hne heq

/-- C7: saving a category rejects an empty (stripped) name or a day count
that is not a positive integer string, leaving the collection unchanged and
unpersisted; with valid inputs, edit mode replaces the record at the editing
index and add mode appends the new record, and the collection is persisted. -/
theorem category_validation_C7 (categories : List Category)
    (dialog_mode : String) (editing_index : Option Nat)
    (name_input description_input days_input : String) :
    ((pyStrip name_input = "" ∨ validDays (pyStrip days_input) = false) →
      save_category categories dialog_mode editing_index
          name_input description_input days_input = (categories, false))
    ∧ (pyStrip name_input ≠ "" → validDays (pyStrip days_input) = true →
        (∀ index : Nat, dialog_mode = "edit" → editing_index = some index →
          index < categories.length →
          save_category categories dialog_mode editing_index
              name_input description_input days_input
            = (categories.set index
                { name := pyStrip name_input,
                  description := pyStrip description_input,
                  days := pyStrip days_input }, true))
        ∧ (editing_index = none →
          save_category categories dialog_mode editing_index
              name_input description_input days_input
            = (categories ++
                [{ name := pyStrip name_input,
                   description := pyStrip description_input,
                   days := pyStrip days_input }], true))) := by
  refine ⟨?_, ?_⟩
  · intro h
    unfold save_category
    rcases h with h | h
    · rw [if_pos h]
    · by_cases hn : pyStrip name_input = ""
      · rw [if_pos hn]
      · rw [if_neg hn, if_pos (by rw [h]; rfl)]
  · intro hname hvalid
    constructor
    · intro index hmode hidx hlen
      subst hmode
      subst hidx
      unfold save_category
      rw [if_neg hname, if_neg (by rw [hvalid]; decide)]
      rfl
    · intro hnone
      subst hnone
      unfold save_category
      rw [if_neg hname, if_neg (by rw [hvalid]; decide)]
      split
      · rename_i heq
        exact Option.noConfusion heq
      · rfl

theorem update_item_by_id_no_match :
    ∀ (items : List Item) (item_id : String) (item : Item),
      (∀ existing ∈ items, existing.id ≠ item_id) →
      update_item_by_id items item_id item = items
  | [], _, _, _ => rfl
  | hd :: tl, item_id, item, h => by
    unfold update_item_by_id
    rw [if_neg (h hd (List.mem_cons_self hd tl))]
    rw [update_item_by_id_no_match tl item_id item
      (fun e he => h e (List.mem_cons_of_mem hd he))]

/-- C8: saving with an editing id that matches no record is a silent no-op:
the record list is returned unchanged (nothing replaced, nothing appended). -/
theorem update_missing_id_C8 (items : List Item) (item_id : String) (item : Item)
    (h : ∀ existing ∈ items, existing.id ≠ item_id) :
    handle_save_items items (some item_id) item = items := by
  unfold handle_save_items
  exact update_item_by_id_no_match items item_id item h

/-- C9: category load silently filters malformed entries: non-dict entries
and entries whose stripped name is empty are dropped, so the spec's example
file loads to exactly the single "Books" record; in general no loaded
record has an empty name. -/
theorem category_load_malformed_C9 :
    load_categories [CatEntry.obj ⟨some "", none, none⟩,
        CatEntry.obj ⟨some "Books", none, some "30"⟩]
      = [{ name := "Books", description := "", days := "30" }]
    ∧ (∀ entries : List CatEntry,
        load_categories (CatEntry.notDict :: entries) = load_categories entries)
    ∧ (∀ entries : List CatEntry,
        (load_categories entries).all (fun c => c.name != "") = true) := by
  refine ⟨by decide, fun entries => rfl, ?_⟩
  intro entries
  rw [List.all_eq_true]
  intro c hc
  unfold load_categories at hc
  rw [List.mem_filterMap] at hc
  obtain ⟨e, _, hload⟩ := hc
  cases e with
  | notDict => exact Option.noConfusion hload
  | obj fields =>
    unfold loadCatEntry at hload
    dsimp only at hload
    by_cases hname : pyStrip (fields.name.getD "") = ""
    · rw [if_pos hname] at hload
      exact Option.noConfusion hload
    · rw [if_neg hname] at hload
      rw [Option.some.injEq] at hload
      subst hload
      simpa [bne] using hname

/-- C10: an item whose `end_date` is non-empty but does not parse as an ISO
`YYYY-MM-DD` date is never auto-ended: its days-left is `None`, lifecycle
evaluation skips it (no change, for every `today`), and the record at its
position is left entirely unchanged. -/
theorem unparseable_end_date_C10 (item : Item) (today : Date)
    (hne : item.end_date ≠ "")
    (hbad : Date.fromisoformat item.end_date = none) :
    days_left_for_item item today = none
    ∧ refreshItem today item = (item, false)
    ∧ ∀ (items : List Item) (k : Nat), items[k]? = some item →
        ((refresh_item_statuses items today).1)[k]? = some item := by
  have hdl : days_left_for_item item today = none := by
    unfold days_left_for_item
    rw [if_neg hne, hbad]
  refine ⟨hdl, refreshItem_of_none hdl, ?_⟩
  intro items k hk
  unfold refresh_item_statuses
  simp only [List.getElem?_map, hk]
  show some (refreshItem today item).1 = some item
  rw [refreshItem_of_none hdl]

/-- C3 counterexample: a kept category entry whose `days` field is absent
loads with `days = "0"`, not `"30"` (`days or "0"` in `_load_categories`);
the "30" of the claim is only the add dialog's initial spinbox value. -/
theorem category_days_counterexample_C3 :
    load_categories [CatEntry.obj ⟨some "Books", none, none⟩]
      = [{ name := "Books", description := "", days := "0" }]
    ∧ ({ name := "Books", description := "", days := "0" } : Category).days ≠ "30" :=
  ⟨by decide, by decide⟩

/-- C3 amended: when the category store loads its backing file, a kept
record whose stored `days` is absent or strips to the empty string gets
`days = "0"`; any other stored `days` string is kept verbatim after
stripping (even a non-numeric one). -/
theorem category_days_default_C3 (entries : List CatEntry) (fields : CatRaw)
    (c : Category)
    (hmem : CatEntry.obj fields ∈ entries)
    (hload : loadCatEntry (CatEntry.obj fields) = some c) :
    c ∈ load_categories entries
    ∧ c.days = (if pyStrip (fields.days.getD "") = "" then "0"
        else pyStrip (fields.days.getD "")) := by
  refine ⟨?_, ?_⟩
  · unfold load_categories
    rw [List.mem_filterMap]
    exact ⟨CatEntry.obj fields, hmem, hload⟩
  · unfold loadCatEntry at hload
    dsimp only at hload
    by_cases hname : pyStrip (fields.name.getD "") = ""
    · rw [if_pos hname] at hload
      exact Option.noConfusion hload
    · rw [if_neg hname] at hload
      rw [Option.some.injEq] at hload
      rw [← hload]

/-- C4 counterexample: an item entry stored with the unknown status
"paused" still carries status "paused" after load: the loader only
substitutes "active" for a missing or blank status, it does not force the
status into the two-value enum. -/
theorem item_status_counterexample_C4 :
    (load_items_norm (fun _ => "u0")
        [ItemEntry.obj ⟨some "i1", some "Books", some "Phone", some "x",
          some "", some "2024-01-01", some "", some "", some "paused"⟩]).map Item.status
      = ["paused"]
    ∧ ("paused" : String) ≠ "active" ∧ ("paused" : String) ≠ "ended" :=
  ⟨by decide, by decide, by decide⟩

theorem normStatus_ne_empty (raw : Option String) : normStatus raw ≠ "" := by
  unfold normStatus
  dsimp only
  by_cases h : pyStrip (raw.getD "active") = ""
  · rw [if_pos h]
    decide
  · rw [if_neg h]
    exact h

theorem load_items_loop_status :
    ∀ (entries : List ItemEntry) (fresh : Nat → String) (n : Nat) (item : Item),
      item ∈ load_items_loop fresh n entries →
      ∃ fields : ItemRaw, ItemEntry.obj fields ∈ entries
        ∧ item.status = normStatus fields.status
  | [], _, _, _, h => absurd h (List.not_mem_nil _)
  | .notDict :: rest, fresh, n, item, h => by
    unfold load_items_loop at h
    obtain ⟨fields, hmem, hstat⟩ := load_items_loop_status rest fresh n item h
    exact ⟨fields, List.mem_cons_of_mem _ hmem, hstat⟩
  | .obj f :: rest, fresh, n, item, h => by
    unfold load_items_loop at h
    rw [List.mem_cons] at h
    rcases h with h | h
    · exact ⟨f, List.mem_cons_self _ _, by rw [h]⟩
    · obtain ⟨fields, hmem, hstat⟩ := load_items_loop_status rest fresh _ item h
      exact ⟨fields, List.mem_cons_of_mem _ hmem, hstat⟩

/-- C4 amended: after item load, every record's status is non-empty and is
the stripped stored status, with "active" substituted when the stored
status is missing or strips to empty; an unknown non-blank status string is
kept verbatim, so the loaded status need not be one of the two enum values. -/
theorem item_status_normalize_C4 (fresh : Nat → String) (entries : List ItemEntry) :
    ∀ item ∈ load_items_norm fresh entries,
      item.status ≠ ""
      ∧ ∃ fields : ItemRaw, ItemEntry.obj fields ∈ entries
          ∧ item.status = normStatus fields.status
          ∧ ((fields.status = none ∨ pyStrip (fields.status.getD "") = "") →
              item.status = "active") := by
  intro item hmem
  obtain ⟨fields, hf, hstat⟩ := load_items_loop_status entries fresh 0 item hmem
  refine ⟨by rw [hstat]; exact normStatus_ne_empty fields.status, fields, hf, hstat, ?_⟩
  intro hdef
  rw [hstat]
  rcases hdef with h | h
  · rw [h]
    decide
  · rcases hsf : fields.status with _ | s
    · decide
    · rw [hsf] at h
      simp only [Option.getD_some] at h
      simp [normStatus, h]

/-! ### Sample data for the concrete witnesses -/

/-- An active item whose end date 2024-01-10 is stored in canonical form. -/
def sampleItem : Item :=
  { id := "a1", category := "Electronics", name := "Phone", description := "x",
    notes := "", date_added := "2024-01-01", end_date := "2024-01-10",
    image_url := "", status := "active" }

/-- An ended item with the same (past) end date. -/
def sampleEnded : Item :=
  { sampleItem with id := "a2", status := "ended" }

/-- An item whose end date is stored in `DD-MM-YYYY` form, which
`date.fromisoformat` rejects. -/
def sampleBadDate : Item :=
  { sampleItem with id := "a3", end_date := "10-01-2024" }

/-- A raw item entry with no stored status. -/
def sampleRawC4 : ItemRaw :=
  ⟨some "i1", some "Books", some "Phone", some "x", some "", some "2024-01-01",
   some "", some "", none⟩

/-- The record `sampleRawC4` loads to. -/
def sampleLoadedC4 : Item :=
  { id := "i1", category := "Books", name := "Phone", description := "x",
    notes := "", date_added := "2024-01-01", end_date := "", image_url := "",
    status := "active" }

/-- Concrete instance of C1: the spec's auto-end scenario, end date
2024-01-10 evaluated at today 2024-01-11. -/
theorem lifecycle_monotonic_C1_witness :
    ((refresh_item_statuses [sampleItem] ⟨2024, 1, 11⟩).1)[0]?
      = some { sampleItem with status := "ended" } :=
  ((lifecycle_monotonic_C1 [sampleItem] ⟨2024, 1, 11⟩ (by decide)).1 0 sampleItem
    ⟨2024, 1, 10⟩ (by decide) (by decide) (by decide) (Or.inl (by decide))
    (by decide)).mpr (by decide)

/-- Concrete instance of the amended C3: stored days " 14 " loads as "14". -/
theorem category_days_default_C3_witness :
    ({ name := "Books", description := "", days := "14" } : Category)
        ∈ load_categories [CatEntry.obj ⟨some "Books", none, some " 14 "⟩]
    ∧ ({ name := "Books", description := "", days := "14" } : Category).days
        = (if pyStrip ((some " 14 " : Option String).getD "") = "" then "0"
           else pyStrip ((some " 14 " : Option String).getD "")) :=
  category_days_default_C3 [CatEntry.obj ⟨some "Books", none, some " 14 "⟩]
    ⟨some "Books", none, some " 14 "⟩
    { name := "Books", description := "", days := "14" }
    (by decide) (by decide)

/-- Concrete instance of the amended C4: a missing status loads as "active". -/
theorem item_status_normalize_C4_witness :
    sampleLoadedC4.status ≠ ""
    ∧ ∃ fields : ItemRaw, ItemEntry.obj fields ∈ [ItemEntry.obj sampleRawC4]
        ∧ sampleLoadedC4.status = normStatus fields.status
        ∧ ((fields.status = none ∨ pyStrip (fields.status.getD "") = "") →
            sampleLoadedC4.status = "active") :=
  item_status_normalize_C4 (fun _ => "u0") [ItemEntry.obj sampleRawC4]
    sampleLoadedC4 (by decide)

/-- Concrete instance of C5: the spec's restore scenario at today
2024-01-11 with end date 2024-01-10. -/
theorem restore_reend_C5_witness :
    (restore_item [sampleEnded] "a2")[0]? = some { sampleEnded with status := "active" }
    ∧ ((refresh_item_statuses (restore_item [sampleEnded] "a2") ⟨2024, 1, 11⟩).1)[0]?
        = some { sampleEnded with status := "ended" } :=
  restore_reend_C5 [sampleEnded] 0 sampleEnded "a2" ⟨2024, 1, 11⟩ ⟨2024, 1, 10⟩
    (by decide) (by decide) (fun j _ hj _ => absurd hj (Nat.not_lt_zero j))
    (by decide) (by decide) (by decide)

/-- Concrete instance of C6 on a two-item collection. -/
theorem filter_partition_C6_witness :
    (listActive [sampleItem, sampleEnded] ++ listEnded [sampleItem, sampleEnded]).Perm
        [sampleItem, sampleEnded]
    ∧ sampleItem ∉ listEnded [sampleItem, sampleEnded] :=
  ⟨(filter_partition_C6 [sampleItem, sampleEnded]).1,
   (filter_partition_C6 [sampleItem, sampleEnded]).2 sampleItem (by decide)⟩

/-- Concrete instance of C7: the spec's add-and-persist scenario. -/
theorem category_validation_C7_witness :
    save_category [] "add" none "Electronics" "Gadgets" "14"
      = ([{ name := pyStrip "Electronics", description := pyStrip "Gadgets",
            days := pyStrip "14" }], true) :=
  ((category_validation_C7 [] "add" none "Electronics" "Gadgets" "14").2
    (by decide) (by decide)).2 rfl

/-- Concrete instance of C8: an update whose id matches nothing. -/
theorem update_missing_id_C8_witness :
    handle_save_items [sampleItem] (some "zz") sampleEnded = [sampleItem] :=
  update_missing_id_C8 [sampleItem] "zz" sampleEnded
    (fun e he => by
      rw [List.mem_singleton] at he
      subst he
      decide)

/-- Concrete instance of C10 on a `DD-MM-YYYY` end date. -/
theorem unparseable_end_date_C10_witness :
    days_left_for_item sampleBadDate ⟨2024, 1, 11⟩ = none
    ∧ ((refresh_item_statuses [sampleBadDate] ⟨2024, 1, 11⟩).1)[0]? = some sampleBadDate :=
  ⟨(unparseable_end_date_C10 sampleBadDate ⟨2024, 1, 11⟩ (by decide) (by decide)).1,
   (unparseable_end_date_C10 sampleBadDate ⟨2024, 1, 11⟩ (by decide) (by decide)).2.2
     [sampleBadDate] 0 (by decide)⟩

end EbayListings
